import Mathlib

/-!
# JavaCAN: the epoll / eventfd JNI bridge (`src/main/c/javacan_epoll.c`)

A shallow embedding of the native functions of `javacan_epoll.c` and the
properties proved about them.

Conventions of the embedding:

* C and JNI integers are `Int` / `Nat`; every conversion the C code performs
  is written out (`toUInt32`, `toInt32`, `toUInt64`, `toInt64`).
* Kernel and libc calls are parameters of the functions that make them: a call
  takes the kernel state `σ` and returns a result and the next state, or
  `Sys.blocks` when the calling thread is suspended.
* `throw_native_exception` is recorded as the pending exception of the result.
* The memory read by `extractEvents` is an explicit state: the buffer and a
  heap of Java int arrays addressed by reference, so that the two array
  arguments may be the same array; reading or writing outside an object is
  `none` (behaviour the C standard leaves undefined).
-/

namespace Java_tel_schich_javacan_linux_epoll_EPoll

/-! ## Machine integers -/

/-- Conversion to `uint32_t`: reduction modulo 2^32. -/
def toUInt32 (x : Int) : Nat := (x % 2 ^ 32).toNat

/-- Conversion to `int` / `jint`: the two's complement value of the low 32 bits. -/
def toInt32 (x : Int) : Int := (x + 2 ^ 31) % 2 ^ 32 - 2 ^ 31

/-- Conversion to `uint64_t` / `eventfd_t`: reduction modulo 2^64. -/
def toUInt64 (x : Int) : Nat := (x % 2 ^ 64).toNat

/-- Conversion to `jlong`: the two's complement value of the low 64 bits. -/
def toInt64 (x : Int) : Int := (x + 2 ^ 63) % 2 ^ 64 - 2 ^ 63

/-! ## Results -/

/-- Outcome of a call that may suspend the calling thread. -/
inductive Sys (α : Type) where
  | returned (a : α)
  | blocks
deriving DecidableEq, Repr

/-- What a native function hands back to the Java caller: its return value and
the exception left pending in the JNI environment, if any. -/
structure JniResult where
  value : Int
  exception : Option String
deriving DecidableEq, Repr

/-- Modelled from the spec: throw_native_exception is declared in `common.h`,
which is not part of the sources at hand. It raises a native exception carrying
the message; the function that called it then goes on and returns. -/
def throw_native_exception (message : String) : Option String := some message

/-! ## Constants of the Linux headers -/

/-- Value of `EFD_SEMAPHORE` in `<sys/eventfd.h>`. -/
def EFD_SEMAPHORE : Nat := 1

/-- Value of `EFD_NONBLOCK` in `<sys/eventfd.h>` (octal 04000). -/
def EFD_NONBLOCK : Nat := 2048

/-- Value of `EFD_CLOEXEC` in `<sys/eventfd.h>` (octal 02000000). -/
def EFD_CLOEXEC : Nat := 524288

/-- Value of `EPOLL_CTL_ADD` in `<sys/epoll.h>`. -/
def EPOLL_CTL_ADD : Nat := 1

/-- Value of `EPOLL_CTL_DEL` in `<sys/epoll.h>`. -/
def EPOLL_CTL_DEL : Nat := 2

/-- Value of `EPOLL_CTL_MOD` in `<sys/epoll.h>`. -/
def EPOLL_CTL_MOD : Nat := 3

/-- One readiness record, `struct epoll_event`: the `events` word is a
`uint32_t`, and of the `data` union only the member `fd` is used. -/
structure epoll_event where
  events : Nat
  fd : Int
deriving DecidableEq, Repr

/-! ## The eventfd functions -/

/-- Flags computed by `createEventfd` (lines 38-41). -/
def createEventfd_flags (block : Bool) : Nat :=
  let flags := EFD_CLOEXEC
  if !block then flags ||| EFD_NONBLOCK else flags

/-- Source function `createEventfd` (lines 37-44): `eventfd(0, flags)`. -/
def createEventfd {σ : Type} (eventfd : Nat → Nat → σ → Int × σ)
    (block : Bool) (k : σ) : Int × σ :=
  eventfd 0 (createEventfd_flags block) k

/-- Source function `signalEvent` (lines 46-52). -/
def signalEvent {σ : Type} (eventfd_write : Int → Nat → σ → Sys (Int × σ))
    (eventfd : Int) (value : Int) (k : σ) : Sys (JniResult × σ) :=
  match eventfd_write eventfd (toUInt64 value) k with
  | .blocks => .blocks
  | .returned (result, k1) =>
    if result < 0 then
      .returned (⟨result, throw_native_exception "Unable to signal the eventfd"⟩, k1)
    else
      .returned (⟨result, none⟩, k1)

/-- Source function `clearEvent` (lines 54-61). The call `eventfd_read` gets
the current content of `val` (zero) and returns its result together with the
content of `val` afterwards. -/
def clearEvent {σ : Type} (eventfd_read : Int → Nat → σ → Sys (Int × Nat × σ))
    (eventfd : Int) (k : σ) : Sys (JniResult × σ) :=
  match eventfd_read eventfd 0 k with
  | .blocks => .blocks
  | .returned (result, val, k1) =>
    if result < 0 then
      .returned (⟨result, none⟩, k1)
    else
      .returned (⟨toInt64 val, none⟩, k1)

/-! ## Closing and the watch set -/

/-- Source function `close` (lines 71-77). -/
def close {σ : Type} (sys_close : Int → σ → Sys (Int × σ))
    (fd : Int) (k : σ) : Sys (JniResult × σ) :=
  match sys_close fd k with
  | .blocks => .blocks
  | .returned (result, k1) =>
    if result ≠ 0 then
      .returned (⟨result, throw_native_exception "Unable to close epoll fd"⟩, k1)
    else
      .returned (⟨result, none⟩, k1)

/-- Source function `addFileDescriptor` (lines 79-88). -/
def addFileDescriptor {σ : Type}
    (epoll_ctl : Int → Nat → Int → Option epoll_event → σ → Sys (Int × σ))
    (epollfd fd interests : Int) (k : σ) : Sys (JniResult × σ) :=
  let ev : epoll_event := ⟨toUInt32 interests, fd⟩
  match epoll_ctl epollfd EPOLL_CTL_ADD fd (some ev) k with
  | .blocks => .blocks
  | .returned (result, k1) =>
    if result ≠ 0 then
      .returned (⟨result, throw_native_exception "Unable to add epoll file descriptor"⟩, k1)
    else
      .returned (⟨result, none⟩, k1)

/-- Source function `removeFileDescriptor` (lines 90-96). -/
def removeFileDescriptor {σ : Type}
    (epoll_ctl : Int → Nat → Int → Option epoll_event → σ → Sys (Int × σ))
    (epollfd fd : Int) (k : σ) : Sys (JniResult × σ) :=
  match epoll_ctl epollfd EPOLL_CTL_DEL fd none k with
  | .blocks => .blocks
  | .returned (result, k1) =>
    if result ≠ 0 then
      .returned (⟨result, throw_native_exception "Unable to remove file descriptor"⟩, k1)
    else
      .returned (⟨result, none⟩, k1)

/-- Source function `updateFileDescriptor` (lines 98-107). -/
def updateFileDescriptor {σ : Type}
    (epoll_ctl : Int → Nat → Int → Option epoll_event → σ → Sys (Int × σ))
    (epollfd fd interests : Int) (k : σ) : Sys (JniResult × σ) :=
  let ev : epoll_event := ⟨toUInt32 interests, fd⟩
  match epoll_ctl epollfd EPOLL_CTL_MOD fd (some ev) k with
  | .blocks => .blocks
  | .returned (result, k1) =>
    if result ≠ 0 then
      .returned (⟨result, throw_native_exception "Unable to modify FD"⟩, k1)
    else
      .returned (⟨result, none⟩, k1)

/-- Source function `poll` (lines 109-115). The kernel call gets the epoll
descriptor, the address of the buffer, `maxEvents` and `(int) timeout`. -/
def poll {σ : Type} (epoll_wait : Int → Int → Int → Int → σ → Sys (Int × σ))
    (epollfd eventsPointer maxEvents timeout : Int) (k : σ) : Sys (JniResult × σ) :=
  match epoll_wait epollfd eventsPointer maxEvents (toInt32 timeout) k with
  | .blocks => .blocks
  | .returned (result, k1) =>
    if result = -1 then
      .returned (⟨result, throw_native_exception "Unable to poll"⟩, k1)
    else
      .returned (⟨result, none⟩, k1)

/-! ## The kernel's eventfd object

The functions above reach the counter through `eventfd`, `eventfd_write` and
`eventfd_read`. What follows is the behaviour of those calls as eventfd(2)
documents it, for a process with one descriptor slot `d`: the state is the
object behind `d`, or `none` while `d` is not open. -/

/-- Kernel object behind an eventfd descriptor: the 64-bit counter and the
flags it was created with. -/
structure EventFd where
  counter : Nat
  flags : Nat
deriving DecidableEq, Repr

/-- Call `eventfd(initval, flags)`: opens descriptor `d` on a new counter, or
fails with -1 when the slot is taken. -/
def linux_eventfd (d : Int) (initval flags : Nat) : Option EventFd → Int × Option EventFd
  | none => (d, some ⟨initval, flags⟩)
  | some e => (-1, some e)

/-- Call `eventfd_write(fd, value)`: 0 when the value was added, -1 on a bad
descriptor, on the value 2^64 - 1 (EINVAL) and, for a non-blocking descriptor,
when the sum would pass the maximum 2^64 - 2 (EAGAIN); a blocking descriptor
suspends the caller in that last case. -/
def linux_eventfd_write (d : Int) (fd : Int) (value : Nat) :
    Option EventFd → Sys (Int × Option EventFd)
  | none => .returned (-1, none)
  | some e =>
    if fd ≠ d then .returned (-1, some e)
    else if value = 2 ^ 64 - 1 then .returned (-1, some e)
    else if e.counter + value ≤ 2 ^ 64 - 2 then
      .returned (0, some ⟨e.counter + value, e.flags⟩)
    else if e.flags &&& EFD_NONBLOCK ≠ 0 then .returned (-1, some e)
    else .blocks

/-- Call `eventfd_read(fd, &val)`: with a counter above zero it stores the
counter in `val` and resets it (or stores 1 and decrements, under
`EFD_SEMAPHORE`) and returns 0; with a zero counter a non-blocking descriptor
fails with -1 (EAGAIN), leaving `val` alone, and a blocking one suspends the
caller. -/
def linux_eventfd_read (d : Int) (fd : Int) (val : Nat) :
    Option EventFd → Sys (Int × Nat × Option EventFd)
  | none => .returned (-1, val, none)
  | some e =>
    if fd ≠ d then .returned (-1, val, some e)
    else if e.counter = 0 then
      if e.flags &&& EFD_NONBLOCK ≠ 0 then .returned (-1, val, some e) else .blocks
    else if e.flags &&& EFD_SEMAPHORE ≠ 0 then
      .returned (0, 1, some ⟨e.counter - 1, e.flags⟩)
    else .returned (0, e.counter, some ⟨0, e.flags⟩)

/-- Runs `signalEvent` once for each value of the list, in order. -/
def signalAll {σ : Type} (eventfd_write : Int → Nat → σ → Sys (Int × σ))
    (eventfd : Int) : List Int → σ → Sys (List JniResult × σ)
  | [], k => .returned ([], k)
  | v :: vs, k =>
    match signalEvent eventfd_write eventfd v k with
    | .blocks => .blocks
    | .returned (r, k1) =>
      match signalAll eventfd_write eventfd vs k1 with
      | .blocks => .blocks
      | .returned (rs, k2) => .returned (r :: rs, k2)

/-! ## Kernels that record what they are handed -/

/-- An `epoll_wait` that answers `result` and appends the timeout it was handed
to the state. -/
def recording_epoll_wait (result : Int) (_epfd _events _maxevents timeout : Int)
    (log : List Int) : Sys (Int × List Int) :=
  .returned (result, log ++ [timeout])

/-! ## Batch extraction -/

/-- A reference to a Java int array, the value a `jintArray` argument carries.
Two arguments holding the same reference are the same array. -/
abbrev jintArray := Nat

/-- The two `jintArray` arguments of `extractEvents`, by position. A critical
section is named by the argument it was opened for. -/
inductive ArrayId where
  | events
  | fds
deriving DecidableEq, Repr

/-- A call of the JNI critical-access functions. -/
inductive JniCall where
  | GetPrimitiveArrayCritical (array : ArrayId) (granted : Bool)
  | ReleasePrimitiveArrayCritical (array : ArrayId)
deriving DecidableEq, Repr

/-- Everything `extractEvents` can read or write: the records stored at
`eventsPointer`, the contents of every Java int array (by reference), the
critical sections that are open, and the critical-access calls made so far. -/
structure Memory where
  buffer : List epoll_event
  heap : jintArray → List Int
  pinned : List ArrayId
  calls : List JniCall

/-- JNI `GetArrayLength`. -/
def GetArrayLength (m : Memory) (array : jintArray) : Int :=
  (m.heap array).length

/-- JNI `GetPrimitiveArrayCritical` for the argument `a`: `critical` tells
whether access is granted; when it is not, the call returns `NULL` (here
`false`). The pointer it returns addresses the elements of the array. -/
def GetPrimitiveArrayCritical (critical : ArrayId → Bool) (a : ArrayId) (m : Memory) :
    Bool × Memory :=
  if critical a then
    (true, { m with pinned := a :: m.pinned,
                    calls := m.calls ++ [.GetPrimitiveArrayCritical a true] })
  else
    (false, { m with calls := m.calls ++ [.GetPrimitiveArrayCritical a false] })

/-- JNI `ReleasePrimitiveArrayCritical` with mode 0: the elements written
through the critical pointer are those of the array, and the critical section
is closed. -/
def ReleasePrimitiveArrayCritical (a : ArrayId) (m : Memory) : Memory :=
  { m with pinned := m.pinned.erase a,
           calls := m.calls ++ [.ReleasePrimitiveArrayCritical a] }

/-- The store `p[i] = x` through the critical pointer `p` of the array `array`. -/
def store (heap : jintArray → List Int) (array : jintArray) (i : Nat) (x : Int) :
    jintArray → List Int :=
  Function.update heap array ((heap array).set i x)

/-- The loop of `extractEvents` (lines 139-143) with `k` iterations left at
index `i`, where `eventsPtr` points at record `i`: first the store through
`criticalEvents` (line 140), then the store through `criticalFds` (line 141).
When `events` and `fds` are the same array the second store lands on the
element the first one wrote. A read past the end of the buffer or a write
past the end of an array is `none`. -/
def copyLoop (events fds : jintArray) : Nat → Nat → Memory → Option Memory
  | 0, _, m => some m
  | k + 1, i, m =>
    match m.buffer[i]? with
    | none => none
    | some r =>
      if i < (m.heap events).length ∧ i < (m.heap fds).length then
        copyLoop events fds k (i + 1)
          { m with heap := store (store m.heap events i (toInt32 r.events)) fds i r.fd }
      else none

/-- Source function `extractEvents` (lines 117-149); `events` and `fds` are the
two array arguments, which the source does not require to differ. -/
def extractEvents (critical : ArrayId → Bool) (n : Int) (events fds : jintArray)
    (m : Memory) : Option (Int × Memory) :=
  if n ≤ 0 then some (0, m)
  else if GetArrayLength m events < n ∨ GetArrayLength m fds < n then some (-1, m)
  else
    match GetPrimitiveArrayCritical critical .events m with
    | (false, m1) => some (-1, m1)
    | (true, m1) =>
      match GetPrimitiveArrayCritical critical .fds m1 with
      | (false, m2) => some (-1, ReleasePrimitiveArrayCritical .events m2)
      | (true, m2) =>
        match copyLoop events fds n.toNat 0 m2 with
        | none => none
        | some m3 =>
          some (0, ReleasePrimitiveArrayCritical .fds (ReleasePrimitiveArrayCritical .events m3))

/-- The call copies (it gets past both checks and both acquisitions) and the
buffer holds fewer than `n` records: the one situation in which
`extractEvents` reads memory that is not part of the buffer. -/
def readsPastBuffer (critical : ArrayId → Bool) (n : Int) (events fds : jintArray)
    (m : Memory) : Prop :=
  0 < n ∧ n ≤ (m.heap events).length ∧ n ≤ (m.heap fds).length ∧
    critical .events = true ∧ critical .fds = true ∧ (m.buffer.length : Int) < n

/-- A memory for concrete runs: three records, the second with the top bit of
its events word set; array 0 has three elements and every other array four. -/
def sampleMemory : Memory :=
  ⟨[⟨1, 5⟩, ⟨2147483649, 7⟩, ⟨3, 9⟩], fun a => if a = 0 then [0, 0, 0] else [0, 0, 0, 0],
    [], []⟩

/-! ## Lemmas on the copy loop -/

/-- A store keeps the length of every array. -/
theorem store_length (heap : jintArray → List Int) (a : jintArray) (i : Nat) (x : Int)
    (b : jintArray) : (store heap a i x b).length = (heap b).length := by
  unfold store
  by_cases hb : b = a
  · subst hb; simp
  · simp [Function.update_noteq hb]

/-- A store at index `i` leaves every other index of every array alone. -/
theorem store_getElem?_of_ne (heap : jintArray → List Int) (a : jintArray) (i : Nat)
    (x : Int) (b : jintArray) (j : Nat) (hj : i ≠ j) :
    (store heap a i x b)[j]? = (heap b)[j]? := by
  unfold store
  by_cases hb : b = a
  · subst hb; simp [List.getElem?_set_ne hj]
  · simp [Function.update_noteq hb]

/-- A store within the array is read back. -/
theorem store_getElem?_self (heap : jintArray → List Int) (a : jintArray) (i : Nat)
    (x : Int) (hi : i < (heap a).length) : (store heap a i x a)[i]? = some x := by
  simp [store, hi]

/-- A store leaves every other array alone. -/
theorem store_of_ne (heap : jintArray → List Int) (a : jintArray) (i : Nat) (x : Int)
    (b : jintArray) (hb : b ≠ a) : store heap a i x b = heap b := by
  simp [store, Function.update_noteq hb]

/-- With enough records and room, the loop finishes; it touches only the
indices `i .. i + k - 1` of the two arrays, leaves there the fd of each record
in `fds`, and, when the two arrays differ, the events word in `events`. -/
theorem copyLoop_spec (events fds : jintArray) (k : Nat) : ∀ (i : Nat) (m : Memory),
    i + k ≤ m.buffer.length → i + k ≤ (m.heap events).length →
    i + k ≤ (m.heap fds).length →
    ∃ m1, copyLoop events fds k i m = some m1 ∧ m1.buffer = m.buffer ∧
      m1.pinned = m.pinned ∧ m1.calls = m.calls ∧
      (∀ a, (m1.heap a).length = (m.heap a).length) ∧
      (∀ a, a ≠ events → a ≠ fds → m1.heap a = m.heap a) ∧
      (∀ a j, j < i ∨ i + k ≤ j → (m1.heap a)[j]? = (m.heap a)[j]?) ∧
      (∀ j, i ≤ j → j < i + k →
        (m1.heap fds)[j]? = (m.buffer[j]?).map (fun r => r.fd)) ∧
      (events ≠ fds → ∀ j, i ≤ j → j < i + k →
        (m1.heap events)[j]? = (m.buffer[j]?).map (fun r => toInt32 r.events)) := by
  induction k with
  | zero =>
    intro i m _ _ _
    refine ⟨m, rfl, rfl, rfl, rfl, fun _ => rfl, fun _ _ _ => rfl, fun _ _ _ => rfl,
      fun j h1 h2 => ?_, fun _ j h1 h2 => ?_⟩ <;> omega
  | succ k ih =>
    intro i m hb he hf
    have hi : i < m.buffer.length := by omega
    have hget : m.buffer[i]? = some (m.buffer[i]) := List.getElem?_eq_getElem hi
    have hcond : i < (m.heap events).length ∧ i < (m.heap fds).length :=
      ⟨by omega, by omega⟩
    obtain ⟨m1, h1, h2, h3, h4, h5, h6, h7, h8, h9⟩ :=
      ih (i + 1)
        { m with heap :=
            (store (store m.heap events i (toInt32 (m.buffer[i]).events)) fds i
              (m.buffer[i]).fd) }
        (by simp; omega) (by simp [store_length]; omega) (by simp [store_length]; omega)
    refine ⟨m1, ?_, h2, h3, h4, ?_, ?_, ?_, ?_, ?_⟩
    · simp only [copyLoop, hget, hcond, and_self, if_true]
      exact h1
    · intro a
      rw [h5 a]
      simp [store_length]
    · intro a ha1 ha2
      rw [h6 a ha1 ha2]
      simp [store_of_ne _ _ _ _ a ha2, store_of_ne _ _ _ _ a ha1]
    · intro a j hj
      have hne : i ≠ j := by omega
      rw [h7 a j (by omega)]
      simp [store_getElem?_of_ne _ _ _ _ _ _ hne]
    · intro j hj1 hj2
      by_cases hji : j = i
      · subst hji
        rw [h7 fds j (Or.inl (Nat.lt_succ_self j))]
        simp only [hget, Option.map_some']
        exact store_getElem?_self _ fds j _ (by rw [store_length]; exact hcond.2)
      · exact h8 j (by omega) (by omega)
    · intro hne j hj1 hj2
      by_cases hji : j = i
      · subst hji
        rw [h7 events j (Or.inl (Nat.lt_succ_self j))]
        simp only [hget, Option.map_some']
        show (store (store m.heap events j _) fds j _ events)[j]? = _
        rw [store_of_ne _ fds j _ events hne]
        exact store_getElem?_self _ events j _ hcond.1
      · exact h9 hne j (by omega) (by omega)

/-- With room in both arrays but too few records, the loop reads past the
buffer. -/
theorem copyLoop_none (events fds : jintArray) (k : Nat) : ∀ (i : Nat) (m : Memory),
    i ≤ m.buffer.length → m.buffer.length < i + k →
    i + k ≤ (m.heap events).length → i + k ≤ (m.heap fds).length →
    copyLoop events fds k i m = none := by
  induction k with
  | zero =>
    intro i m hi hb he hf
    omega
  | succ k ih =>
    intro i m hi hb he hf
    by_cases hlt : i < m.buffer.length
    · have hget : m.buffer[i]? = some (m.buffer[i]) := List.getElem?_eq_getElem hlt
      have hcond : i < (m.heap events).length ∧ i < (m.heap fds).length :=
        ⟨by omega, by omega⟩
      simp only [copyLoop, hget, hcond, and_self, if_true]
      exact ih (i + 1) _ (by simpa using hlt) (by simp; omega)
        (by simp [store_length]; omega) (by simp [store_length]; omega)
    · have hget : m.buffer[i]? = none := List.getElem?_eq_none (by omega)
      simp only [copyLoop, hget]

/-! ## The paths through `extractEvents` -/

/-- Nothing to copy: the call returns 0 at once. -/
theorem extractEvents_of_nonpos (critical : ArrayId → Bool) (n : Int)
    (events fds : jintArray) (m : Memory) (hn : n ≤ 0) :
    extractEvents critical n events fds m = some (0, m) := by
  simp [extractEvents, hn]

/-- An array shorter than `n`: the call returns -1 before touching anything. -/
theorem extractEvents_of_short (critical : ArrayId → Bool) (n : Int)
    (events fds : jintArray) (m : Memory) (hn : 0 < n)
    (hs : ((m.heap events).length : Int) < n ∨ ((m.heap fds).length : Int) < n) :
    extractEvents critical n events fds m = some (-1, m) := by
  have h0 : ¬ n ≤ 0 := by omega
  simp [extractEvents, h0, GetArrayLength, hs]

/-- Access for the first argument is refused. -/
theorem extractEvents_of_first_refused (critical : ArrayId → Bool) (n : Int)
    (events fds : jintArray) (m : Memory)
    (hn : 0 < n) (he : n ≤ (m.heap events).length) (hf : n ≤ (m.heap fds).length)
    (hce : critical .events = false) :
    extractEvents critical n events fds m =
      some (-1, { m with calls := m.calls ++ [.GetPrimitiveArrayCritical .events false] }) := by
  have h0 : ¬ n ≤ 0 := by omega
  have hs : ¬ (((m.heap events).length : Int) < n ∨ ((m.heap fds).length : Int) < n) := by
    omega
  simp [extractEvents, h0, GetArrayLength, hs, GetPrimitiveArrayCritical, hce]

/-- Access for the second argument is refused: the first is released again. -/
theorem extractEvents_of_second_refused (critical : ArrayId → Bool) (n : Int)
    (events fds : jintArray) (m : Memory)
    (hn : 0 < n) (he : n ≤ (m.heap events).length) (hf : n ≤ (m.heap fds).length)
    (hce : critical .events = true) (hcf : critical .fds = false) :
    extractEvents critical n events fds m =
      some (-1, { m with calls := m.calls ++
        [.GetPrimitiveArrayCritical .events true, .GetPrimitiveArrayCritical .fds false,
         .ReleasePrimitiveArrayCritical .events] }) := by
  have h0 : ¬ n ≤ 0 := by omega
  have hs : ¬ (((m.heap events).length : Int) < n ∨ ((m.heap fds).length : Int) < n) := by
    omega
  simp [extractEvents, h0, GetArrayLength, hs, GetPrimitiveArrayCritical, hce, hcf,
    ReleasePrimitiveArrayCritical]

/-- Both arrays are long enough, access to both is granted and the buffer
holds `n` records: the call copies and returns 0. The fds always arrive; the
masks arrive when the two arguments are different arrays. -/
theorem extractEvents_of_copy (critical : ArrayId → Bool) (n : Int)
    (events fds : jintArray) (m : Memory)
    (hn : 0 < n) (hb : n ≤ m.buffer.length) (he : n ≤ (m.heap events).length)
    (hf : n ≤ (m.heap fds).length) (hce : critical .events = true)
    (hcf : critical .fds = true) :
    ∃ m1, extractEvents critical n events fds m = some (0, m1) ∧ m1.buffer = m.buffer ∧
      m1.pinned = m.pinned ∧
      m1.calls = m.calls ++
        [.GetPrimitiveArrayCritical .events true, .GetPrimitiveArrayCritical .fds true,
         .ReleasePrimitiveArrayCritical .events, .ReleasePrimitiveArrayCritical .fds] ∧
      (∀ a, (m1.heap a).length = (m.heap a).length) ∧
      (∀ a, a ≠ events → a ≠ fds → m1.heap a = m.heap a) ∧
      (∀ a (j : Nat), n ≤ j → (m1.heap a)[j]? = (m.heap a)[j]?) ∧
      (∀ j : Nat, (j : Int) < n →
        (m1.heap fds)[j]? = (m.buffer[j]?).map (fun r => r.fd)) ∧
      (events ≠ fds → ∀ j : Nat, (j : Int) < n →
        (m1.heap events)[j]? = (m.buffer[j]?).map (fun r => toInt32 r.events)) := by
  have h0 : ¬ n ≤ 0 := by omega
  have hs : ¬ (((m.heap events).length : Int) < n ∨ ((m.heap fds).length : Int) < n) := by
    omega
  obtain ⟨m3, h1, h2, h3, h4, h5, h6, h7, h8, h9⟩ :=
    copyLoop_spec events fds n.toNat 0
      { m with pinned := ArrayId.fds :: ArrayId.events :: m.pinned,
               calls := m.calls ++ [.GetPrimitiveArrayCritical .events true,
                 .GetPrimitiveArrayCritical .fds true] }
      (by simp; omega) (by simp; omega) (by simp; omega)
  refine ⟨ReleasePrimitiveArrayCritical .fds (ReleasePrimitiveArrayCritical .events m3),
    ?_, ?_, ?_, ?_, ?_, ?_, ?_, ?_, ?_⟩
  · simp [extractEvents, h0, GetArrayLength, hs, GetPrimitiveArrayCritical, hce, hcf, h1]
  · simpa [ReleasePrimitiveArrayCritical] using h2
  · simp [ReleasePrimitiveArrayCritical, h3]
  · simp [ReleasePrimitiveArrayCritical, h4]
  · intro a
    simpa [ReleasePrimitiveArrayCritical] using h5 a
  · intro a ha1 ha2
    simpa [ReleasePrimitiveArrayCritical] using h6 a ha1 ha2
  · intro a j hj
    simpa [ReleasePrimitiveArrayCritical] using h7 a j (Or.inr (by omega))
  · intro j hj
    simpa [ReleasePrimitiveArrayCritical] using h8 j (Nat.zero_le j) (by omega)
  · intro hne j hj
    simpa [ReleasePrimitiveArrayCritical] using h9 hne j (Nat.zero_le j) (by omega)

/-- Both arrays are long enough and access to both is granted, but the buffer
holds fewer than `n` records: the loop reads past it. -/
theorem extractEvents_of_readsPastBuffer (critical : ArrayId → Bool) (n : Int)
    (events fds : jintArray) (m : Memory)
    (h : readsPastBuffer critical n events fds m) :
    extractEvents critical n events fds m = none := by
  obtain ⟨hn, he, hf, hce, hcf, hb⟩ := h
  have h0 : ¬ n ≤ 0 := by omega
  have hs : ¬ (((m.heap events).length : Int) < n ∨ ((m.heap fds).length : Int) < n) := by
    omega
  have hnone := copyLoop_none events fds n.toNat 0
      { m with pinned := ArrayId.fds :: ArrayId.events :: m.pinned,
               calls := m.calls ++ [.GetPrimitiveArrayCritical .events true,
                 .GetPrimitiveArrayCritical .fds true] }
      (Nat.zero_le _) (by simp; omega) (by simp; omega) (by simp; omega)
  simp [extractEvents, h0, GetArrayLength, hs, GetPrimitiveArrayCritical, hce, hcf, hnone]

/-- Every call of `extractEvents` takes one of six paths. -/
theorem extractEvents_paths (critical : ArrayId → Bool) (n : Int)
    (events fds : jintArray) (m : Memory) :
    (n ≤ 0 ∧ extractEvents critical n events fds m = some (0, m)) ∨
    (0 < n ∧ extractEvents critical n events fds m = some (-1, m)) ∨
    (0 < n ∧ extractEvents critical n events fds m =
      some (-1, { m with calls := m.calls ++ [.GetPrimitiveArrayCritical .events false] })) ∨
    (0 < n ∧ extractEvents critical n events fds m =
      some (-1, { m with calls := m.calls ++
        [.GetPrimitiveArrayCritical .events true, .GetPrimitiveArrayCritical .fds false,
         .ReleasePrimitiveArrayCritical .events] })) ∨
    (0 < n ∧ ∃ m1, extractEvents critical n events fds m = some (0, m1) ∧
      m1.buffer = m.buffer ∧ m1.pinned = m.pinned ∧
      m1.calls = m.calls ++
        [.GetPrimitiveArrayCritical .events true, .GetPrimitiveArrayCritical .fds true,
         .ReleasePrimitiveArrayCritical .events, .ReleasePrimitiveArrayCritical .fds] ∧
      (∀ a, (m1.heap a).length = (m.heap a).length) ∧
      (∀ a, a ≠ events → a ≠ fds → m1.heap a = m.heap a) ∧
      (∀ a (j : Nat), n ≤ j → (m1.heap a)[j]? = (m.heap a)[j]?)) ∨
    (readsPastBuffer critical n events fds m ∧
      extractEvents critical n events fds m = none) := by
  by_cases hn : n ≤ 0
  · exact Or.inl ⟨hn, extractEvents_of_nonpos critical n events fds m hn⟩
  have hn1 : 0 < n := by omega
  by_cases hs : ((m.heap events).length : Int) < n ∨ ((m.heap fds).length : Int) < n
  · exact Or.inr (Or.inl ⟨hn1, extractEvents_of_short critical n events fds m hn1 hs⟩)
  have he : n ≤ (m.heap events).length := by omega
  have hf : n ≤ (m.heap fds).length := by omega
  cases hce : critical .events with
  | false =>
    exact Or.inr (Or.inr (Or.inl
      ⟨hn1, extractEvents_of_first_refused critical n events fds m hn1 he hf hce⟩))
  | true =>
    cases hcf : critical .fds with
    | false =>
      exact Or.inr (Or.inr (Or.inr (Or.inl
        ⟨hn1, extractEvents_of_second_refused critical n events fds m hn1 he hf hce hcf⟩)))
    | true =>
      by_cases hb : n ≤ m.buffer.length
      · obtain ⟨m1, h1, h2, h3, h4, h5, h6, h7, _, _⟩ :=
          extractEvents_of_copy critical n events fds m hn1 hb he hf hce hcf
        exact Or.inr (Or.inr (Or.inr (Or.inr (Or.inl
          ⟨hn1, m1, h1, h2, h3, h4, h5, h6, h7⟩))))
      · have hr : readsPastBuffer critical n events fds m :=
          ⟨hn1, he, hf, hce, hcf, by omega⟩
        exact Or.inr (Or.inr (Or.inr (Or.inr (Or.inr
          ⟨hr, extractEvents_of_readsPastBuffer critical n events fds m hr⟩))))

/-- The call is undefined in one situation only: it copies from a buffer
holding fewer than `n` records. -/
theorem extractEvents_eq_none_iff (critical : ArrayId → Bool) (n : Int)
    (events fds : jintArray) (m : Memory) :
    extractEvents critical n events fds m = none ↔
      readsPastBuffer critical n events fds m := by
  constructor
  · intro h
    rcases extractEvents_paths critical n events fds m with
      ⟨_, h1⟩ | ⟨_, h1⟩ | ⟨_, h1⟩ | ⟨_, h1⟩ | ⟨_, m2, h1, _⟩ | ⟨hr, _⟩
    · rw [h1] at h; cases h
    · rw [h1] at h; cases h
    · rw [h1] at h; cases h
    · rw [h1] at h; cases h
    · rw [h1] at h; cases h
    · exact hr
  · exact extractEvents_of_readsPastBuffer critical n events fds m

/-- When the same array is passed for both arguments, the copy leaves the fd
of each record, not its events word, at every index below `n`. -/
theorem extractEvents_same_array (critical : ArrayId → Bool) (n : Int)
    (array : jintArray) (m : Memory)
    (hn : 0 < n) (hb : n ≤ m.buffer.length) (he : n ≤ (m.heap array).length)
    (hce : critical .events = true) (hcf : critical .fds = true) :
    ∃ m1, extractEvents critical n array array m = some (0, m1) ∧
      ∀ j : Nat, (j : Int) < n →
        (m1.heap array)[j]? = (m.buffer[j]?).map (fun r => r.fd) := by
  obtain ⟨m1, h1, _, _, _, _, _, _, h8, _⟩ :=
    extractEvents_of_copy critical n array array m hn hb he he hce hcf
  exact ⟨m1, h1, h8⟩

/-! ## Batch extraction: the claims -/

/-- C1, as the claim states it, fails: with the same array of length 3 passed
for both outputs, n = 2 and a buffer of three records, the call returns 0 and
the array holds the fds 5 and 7 at indices 0 and 1, where the events words of
those records are 1 and 2147483649; so the outputs do not hold, at every
index below n, the events word in the masks and the fd in the fds. -/
theorem extractEvents_copy_correct_counterexample :
    ((0 : Int) < 2 ∧ (2 : Int) ≤ sampleMemory.buffer.length ∧
      (2 : Int) ≤ (sampleMemory.heap 0).length) ∧
    (extractEvents (fun _ => true) 2 0 0 sampleMemory).map (fun r => (r.1, r.2.heap 0)) =
      some (0, [5, 7, 0]) ∧
    sampleMemory.buffer[0]? = some ⟨1, 5⟩ ∧ toInt32 1 = 1 ∧
    ¬ ∃ m1, extractEvents (fun _ => true) 2 0 0 sampleMemory = some (0, m1) ∧
      ∀ i : Nat, (i : Int) < 2 →
        ∃ r, sampleMemory.buffer[i]? = some r ∧
          (m1.heap 0)[i]? = some (toInt32 r.events) ∧ (m1.heap 0)[i]? = some r.fd := by
  refine ⟨by decide, by decide, by decide, by decide, ?_⟩
  rintro ⟨m1, _, hall⟩
  obtain ⟨r, hr, h1, h2⟩ := hall 0 (by decide)
  have hr0 : r = ⟨1, 5⟩ := by
    have : sampleMemory.buffer[0]? = some ⟨1, 5⟩ := by decide
    rw [this] at hr
    exact (Option.some.inj hr).symm
  subst hr0
  rw [h1] at h2
  have : toInt32 ((1 : Nat) : Int) = 5 := Option.some.inj h2
  revert this
  decide

/-- C1, amended: for n > 0, a buffer holding at least n records, two different
output arrays of length at least n and critical access to both granted,
`extractEvents` returns 0, and afterwards at every index i < n the masks array
holds the events word of record i as a signed 32-bit integer and the fds array
holds the fd of the same record i. -/
theorem extractEvents_copy_correct (critical : ArrayId → Bool) (n : Int)
    (events fds : jintArray) (m : Memory) (hne : events ≠ fds)
    (hn : 0 < n) (hb : n ≤ m.buffer.length) (he : n ≤ (m.heap events).length)
    (hf : n ≤ (m.heap fds).length) (hce : critical .events = true)
    (hcf : critical .fds = true) :
    ∃ m1, extractEvents critical n events fds m = some (0, m1) ∧
      ∀ i : Nat, (i : Int) < n →
        ∃ r, m.buffer[i]? = some r ∧ (m1.heap events)[i]? = some (toInt32 r.events) ∧
          (m1.heap fds)[i]? = some r.fd := by
  obtain ⟨m1, h1, _, _, _, _, _, _, h8, h9⟩ :=
    extractEvents_of_copy critical n events fds m hn hb he hf hce hcf
  refine ⟨m1, h1, fun i hi => ?_⟩
  have hlt : i < m.buffer.length := by omega
  have hget : m.buffer[i]? = some (m.buffer[i]) := List.getElem?_eq_getElem hlt
  refine ⟨m.buffer[i], hget, ?_, ?_⟩
  · rw [h9 hne i hi, hget]; rfl
  · rw [h8 i hi, hget]; rfl

/-- C1, amended, at a concrete input: two of three records copied into the
arrays 0 and 1, of lengths 3 and 4. -/
theorem extractEvents_copy_correct_witness :
    ((0 : jintArray) ≠ 1 ∧ (0 : Int) < 2 ∧ (2 : Int) ≤ sampleMemory.buffer.length) ∧
    ∃ m1, extractEvents (fun _ => true) 2 0 1 sampleMemory = some (0, m1) ∧
      ∀ i : Nat, (i : Int) < 2 →
        ∃ r, sampleMemory.buffer[i]? = some r ∧
          (m1.heap 0)[i]? = some (toInt32 r.events) ∧ (m1.heap 1)[i]? = some r.fd :=
  ⟨⟨by decide, by decide, by decide⟩,
    extractEvents_copy_correct (fun _ => true) 2 0 1 sampleMemory (by decide) (by decide)
      (by decide) (by decide) (by decide) rfl rfl⟩

/-- C2: for n > 0 and an output array shorter than n, `extractEvents` returns
the failure status -1 and copies nothing: the memory after the call, every
array included, is the memory before it. -/
theorem extractEvents_undersized_all_or_nothing (critical : ArrayId → Bool) (n : Int)
    (events fds : jintArray) (m : Memory) (hn : 0 < n)
    (hs : ((m.heap events).length : Int) < n ∨ ((m.heap fds).length : Int) < n) :
    extractEvents critical n events fds m = some (-1, m) ∧
      ∀ v m1, extractEvents critical n events fds m = some (v, m1) →
        v = -1 ∧ v ≠ 0 ∧ m1.heap = m.heap := by
  have h := extractEvents_of_short critical n events fds m hn hs
  refine ⟨h, fun v m1 h1 => ?_⟩
  rw [h] at h1
  cases h1
  exact ⟨rfl, by decide, rfl⟩

/-- C2 at a concrete input: four records asked for, and the masks array holds
three. -/
theorem extractEvents_undersized_all_or_nothing_witness :
    ((0 : Int) < 4 ∧ ((sampleMemory.heap 0).length : Int) < 4) ∧
    extractEvents (fun _ => true) 4 0 1 sampleMemory = some (-1, sampleMemory) :=
  ⟨⟨by decide, by decide⟩,
    (extractEvents_undersized_all_or_nothing (fun _ => true) 4 0 1 sampleMemory (by decide)
      (Or.inl (by decide))).1⟩

/-- C9: `extractEvents` writes only below index n. Whenever the call is defined
(it is undefined only when it copies from a buffer of fewer than n records),
the buffer records are unchanged, every array keeps its length, every element
of every array at an index i ≥ n is what it was, and arrays other than the two
outputs are untouched; for n ≤ 0 the call returns 0 and leaves the whole
memory unchanged, whatever the array lengths. This holds also when the same
array is passed for both outputs. -/
theorem extractEvents_writes_only_below_n (critical : ArrayId → Bool) (n : Int)
    (events fds : jintArray) (m : Memory) :
    (extractEvents critical n events fds m = none ↔
      readsPastBuffer critical n events fds m) ∧
    (n ≤ 0 → extractEvents critical n events fds m = some (0, m)) ∧
    ∀ v m1, extractEvents critical n events fds m = some (v, m1) →
      m1.buffer = m.buffer ∧
      (∀ a, (m1.heap a).length = (m.heap a).length) ∧
      (∀ a, a ≠ events → a ≠ fds → m1.heap a = m.heap a) ∧
      ∀ a (i : Nat), n ≤ i → (m1.heap a)[i]? = (m.heap a)[i]? := by
  refine ⟨extractEvents_eq_none_iff critical n events fds m,
    extractEvents_of_nonpos critical n events fds m, fun v m1 h => ?_⟩
  rcases extractEvents_paths critical n events fds m with
    ⟨_, h1⟩ | ⟨_, h1⟩ | ⟨_, h1⟩ | ⟨_, h1⟩ | ⟨_, m2, h1, h2, _, _, h5, h6, h7⟩ | ⟨_, h1⟩
  · rw [h1] at h; cases h; exact ⟨rfl, fun _ => rfl, fun _ _ _ => rfl, fun _ _ _ => rfl⟩
  · rw [h1] at h; cases h; exact ⟨rfl, fun _ => rfl, fun _ _ _ => rfl, fun _ _ _ => rfl⟩
  · rw [h1] at h; cases h; exact ⟨rfl, fun _ => rfl, fun _ _ _ => rfl, fun _ _ _ => rfl⟩
  · rw [h1] at h; cases h; exact ⟨rfl, fun _ => rfl, fun _ _ _ => rfl, fun _ _ _ => rfl⟩
  · rw [h1] at h; cases h; exact ⟨h2, h5, h6, h7⟩
  · rw [h1] at h; cases h

/-- C10: `extractEvents` never leaves a critical section open. Whenever the
call is defined (it is undefined only when it copies from a buffer of fewer
than n records), the critical sections open after the call are those open
before it; among the critical-access calls it made, each argument is acquired
at most once and released exactly as often as it was acquired; and if an
acquisition was refused, the call returns -1 and every array is unchanged. -/
theorem extractEvents_critical_sections_closed (critical : ArrayId → Bool) (n : Int)
    (events fds : jintArray) (m : Memory) :
    (extractEvents critical n events fds m = none ↔
      readsPastBuffer critical n events fds m) ∧
    ∀ v m1, extractEvents critical n events fds m = some (v, m1) →
      m1.pinned = m.pinned ∧
      ∃ calls, m1.calls = m.calls ++ calls ∧
        (∀ a, calls.count (.GetPrimitiveArrayCritical a true) ≤ 1 ∧
          calls.count (.ReleasePrimitiveArrayCritical a) =
            calls.count (.GetPrimitiveArrayCritical a true)) ∧
        ((∃ a, JniCall.GetPrimitiveArrayCritical a false ∈ calls) →
          v = -1 ∧ m1.heap = m.heap) := by
  refine ⟨extractEvents_eq_none_iff critical n events fds m, fun v m1 h => ?_⟩
  rcases extractEvents_paths critical n events fds m with
    ⟨_, h1⟩ | ⟨_, h1⟩ | ⟨_, h1⟩ | ⟨_, h1⟩ | ⟨_, m2, h1, _, h3, h4, _, _, _⟩ | ⟨_, h1⟩
  · rw [h1] at h; cases h
    exact ⟨rfl, [], by simp, fun a => by simp, fun ⟨a, ha⟩ => by simp at ha⟩
  · rw [h1] at h; cases h
    exact ⟨rfl, [], by simp, fun a => by simp, fun ⟨a, ha⟩ => by simp at ha⟩
  · rw [h1] at h; cases h
    exact ⟨rfl, _, rfl, fun a => by cases a <;> decide, fun _ => ⟨rfl, rfl⟩⟩
  · rw [h1] at h; cases h
    exact ⟨rfl, _, rfl, fun a => by cases a <;> decide, fun _ => ⟨rfl, rfl⟩⟩
  · rw [h1] at h; cases h
    refine ⟨h3, _, h4, fun a => by cases a <;> decide, fun ⟨a, ha⟩ => ?_⟩
    cases a <;> simp at ha
  · rw [h1] at h; cases h

/-! ## Lemmas on the integer conversions -/

/-- A value in the range of `jint` survives the conversion to `jint`. -/
theorem toInt32_of_range (x : Int) (h1 : -2 ^ 31 ≤ x) (h2 : x < 2 ^ 31) : toInt32 x = x := by
  unfold toInt32
  omega

/-- A non-negative `jlong` converts to the same `uint64_t`. -/
theorem toUInt64_of_nonneg (x : Int) (h1 : 0 ≤ x) (h2 : x < 2 ^ 64) :
    toUInt64 x = x.toNat := by
  unfold toUInt64
  omega

/-- A counter value below 2^63 converts to the same `jlong`. -/
theorem toInt64_of_small (v : Nat) (h : v < 2 ^ 63) : toInt64 v = v := by
  unfold toInt64
  omega

/-- A counter value from 2^63 up converts to a negative `jlong`. -/
theorem toInt64_of_large (v : Nat) (h1 : 2 ^ 63 ≤ v) (h2 : v < 2 ^ 64) :
    toInt64 v = (v : Int) - 2 ^ 64 ∧ toInt64 v < 0 := by
  unfold toInt64
  omega

/-! ## Lemmas on the eventfd counter -/

/-- The descriptor made by `createEventfd`: counter zero and the flags of
lines 38-41. -/
theorem createEventfd_linux (d : Int) (block : Bool) :
    createEventfd (linux_eventfd d) block none = (d, some ⟨0, createEventfd_flags block⟩) :=
  rfl

/-- The flags of `createEventfd` never ask for semaphore reads. -/
theorem createEventfd_flags_semaphore (block : Bool) :
    createEventfd_flags block &&& EFD_SEMAPHORE = 0 := by
  cases block <;> decide

/-- One accepted `signalEvent`: the value is added and 0 is returned. -/
theorem signalEvent_linux_accepted (d : Int) (e : EventFd) (v : Int) (h0 : 0 ≤ v)
    (h1 : (e.counter : Int) + v ≤ 2 ^ 64 - 2) :
    signalEvent (linux_eventfd_write d) d v (some e) =
      .returned (⟨0, none⟩, some ⟨e.counter + v.toNat, e.flags⟩) := by
  have hu : toUInt64 v = v.toNat := toUInt64_of_nonneg v h0 (by omega)
  have hne : ¬ v.toNat = 18446744073709551615 := by omega
  have hle : e.counter + v.toNat ≤ 18446744073709551614 := by omega
  simp [signalEvent, linux_eventfd_write, hu, hne, hle]

/-- A run of accepted `signalEvent` calls adds up. -/
theorem signalAll_linux_accepted (d : Int) : ∀ (vs : List Int) (e : EventFd),
    (∀ v ∈ vs, 0 ≤ v) → (e.counter : Int) + vs.sum ≤ 2 ^ 64 - 2 →
    signalAll (linux_eventfd_write d) d vs (some e) =
      .returned (vs.map (fun _ => (⟨0, none⟩ : JniResult)),
        some ⟨e.counter + vs.sum.toNat, e.flags⟩) := by
  intro vs
  induction vs with
  | nil => intro e _ _; simp [signalAll]
  | cons v vs ih =>
    intro e hnn hsum
    have hv : 0 ≤ v := hnn v (List.mem_cons_self v vs)
    have hvs : ∀ w ∈ vs, 0 ≤ w := fun w hw => hnn w (List.mem_cons_of_mem v hw)
    have hs : 0 ≤ vs.sum := List.sum_nonneg hvs
    rw [List.sum_cons] at hsum
    have h1 := signalEvent_linux_accepted d e v hv (by omega)
    have h2 := ih ⟨e.counter + v.toNat, e.flags⟩ hvs (by simp; omega)
    have h3 : e.counter + v.toNat + vs.sum.toNat = e.counter + (v + vs.sum).toNat := by omega
    simp [signalAll, h1, h2, h3]

/-- A `clearEvent` on a counter above zero, without semaphore reads: the
counter is handed to the caller as a `jlong` and reset. -/
theorem clearEvent_linux_nonzero (d : Int) (e : EventFd) (h0 : e.counter ≠ 0)
    (hs : e.flags &&& EFD_SEMAPHORE = 0) :
    clearEvent (linux_eventfd_read d) d (some e) =
      .returned (⟨toInt64 e.counter, none⟩, some ⟨0, e.flags⟩) := by
  simp [clearEvent, linux_eventfd_read, h0, hs]

/-! ## The wake signal: the claims -/

/-- C3: a descriptor made by `createEventfd` with block = false carries the
non-blocking flag and a zero counter, and `clearEvent` on it, before any
signal, returns (the caller is not suspended) the negative value -1, raises no
exception and leaves the counter as it was. -/
theorem clearEvent_nonblocking_empty (d : Int) :
    ∃ e, createEventfd (linux_eventfd d) false none = (d, some e) ∧
      e.counter = 0 ∧ e.flags &&& EFD_NONBLOCK ≠ 0 ∧
      ∃ r, clearEvent (linux_eventfd_read d) d (some e) = .returned (r, some e) ∧
        r.value = -1 ∧ r.value < 0 ∧ r.exception = none := by
  refine ⟨⟨0, createEventfd_flags false⟩, rfl, rfl, by decide, ⟨-1, none⟩, ?_, rfl, by decide, rfl⟩
  have hf : createEventfd_flags false &&& EFD_NONBLOCK ≠ 0 := by decide
  simp [clearEvent, linux_eventfd_read, hf]

/-- C4, as the claim states it, fails: with no signal at all the clear of a
non-blocking descriptor returns -1 and the clear of a blocking one never
returns, where the sum is 0; and after the two signals 2^62 and 2^62 the clear
returns -2^63, where the sum is 2^63. -/
theorem signal_clear_sum_counterexample :
    (signalAll (linux_eventfd_write 3) 3 [] (createEventfd (linux_eventfd 3) false none).2 =
        .returned ([], some ⟨0, 526336⟩) ∧
      clearEvent (linux_eventfd_read 3) 3 (some ⟨0, 526336⟩) =
        .returned (⟨-1, none⟩, some ⟨0, 526336⟩) ∧
      (-1 : Int) ≠ ([] : List Int).sum) ∧
    (signalAll (linux_eventfd_write 3) 3 [] (createEventfd (linux_eventfd 3) true none).2 =
        .returned ([], some ⟨0, 524288⟩) ∧
      clearEvent (linux_eventfd_read 3) 3 (some ⟨0, 524288⟩) = .blocks) ∧
    (signalAll (linux_eventfd_write 3) 3 [4611686018427387904, 4611686018427387904]
        (createEventfd (linux_eventfd 3) false none).2 =
        .returned ([⟨0, none⟩, ⟨0, none⟩], some ⟨9223372036854775808, 526336⟩) ∧
      clearEvent (linux_eventfd_read 3) 3 (some ⟨9223372036854775808, 526336⟩) =
        .returned (⟨-9223372036854775808, none⟩, some ⟨0, 526336⟩) ∧
      (-9223372036854775808 : Int) ≠
        ([4611686018427387904, 4611686018427387904] : List Int).sum) := by
  decide

/-- C4, amended: for non-negative values v1..vN whose sum S satisfies
0 < S < 2^63, on a descriptor fresh from `createEventfd` (either mode), the N
calls of `signalEvent` each return 0 and raise nothing, the `clearEvent` that
follows returns S without an exception, and the counter is 0 afterwards. -/
theorem signal_clear_sum (d : Int) (block : Bool) (vs : List Int)
    (hnn : ∀ v ∈ vs, 0 ≤ v) (hpos : 0 < vs.sum) (hlt : vs.sum < 2 ^ 63) :
    ∃ e1, signalAll (linux_eventfd_write d) d vs
        (createEventfd (linux_eventfd d) block none).2 =
          .returned (vs.map (fun _ => (⟨0, none⟩ : JniResult)), some e1) ∧
      ∃ e2, clearEvent (linux_eventfd_read d) d (some e1) =
          .returned (⟨vs.sum, none⟩, some e2) ∧ e2.counter = 0 := by
  have h1 := signalAll_linux_accepted d vs ⟨0, createEventfd_flags block⟩ hnn
    (by simp; omega)
  refine ⟨⟨0 + vs.sum.toNat, createEventfd_flags block⟩, h1, ⟨0, createEventfd_flags block⟩, ?_, rfl⟩
  have h2 := clearEvent_linux_nonzero d ⟨0 + vs.sum.toNat, createEventfd_flags block⟩
    (by simp; omega) (createEventfd_flags_semaphore block)
  rw [h2]
  have h3 : toInt64 ((0 + vs.sum.toNat : Nat) : Int) = vs.sum := by
    rw [toInt64_of_small _ (by omega)]
    omega
  simp only [h3]

/-- C4, amended, at a concrete input: the signals 1, 2 and 3 on a non-blocking
descriptor, then a clear returning 6. -/
theorem signal_clear_sum_witness :
    ((∀ v ∈ ([1, 2, 3] : List Int), 0 ≤ v) ∧ 0 < ([1, 2, 3] : List Int).sum ∧
      ([1, 2, 3] : List Int).sum < 2 ^ 63) ∧
    ∃ e1, signalAll (linux_eventfd_write 3) 3 [1, 2, 3]
        (createEventfd (linux_eventfd 3) false none).2 =
          .returned (([1, 2, 3] : List Int).map (fun _ => (⟨0, none⟩ : JniResult)), some e1) ∧
      ∃ e2, clearEvent (linux_eventfd_read 3) 3 (some e1) =
          .returned (⟨([1, 2, 3] : List Int).sum, none⟩, some e2) ∧ e2.counter = 0 :=
  ⟨⟨by decide, by decide, by decide⟩,
    signal_clear_sum 3 false [1, 2, 3] (by decide) (by decide) (by decide)⟩

/-- C8 at a failing input: `signalEvent` with the value -2 is accepted (it is
the unsigned value 2^64 - 2, the counter's maximum), the read that follows
succeeds with result 0 and that counter value, and `clearEvent` returns the
negative value -2, as it would for a failed read; the same happens for every
successful read of a value from 2^63 up. -/
theorem clearEvent_large_counter_is_negative :
    (signalEvent (linux_eventfd_write 3) 3 (-2) (createEventfd (linux_eventfd 3) false none).2 =
        .returned (⟨0, none⟩, some ⟨18446744073709551614, 526336⟩) ∧
      linux_eventfd_read 3 3 0 (some ⟨18446744073709551614, 526336⟩) =
        .returned (0, 18446744073709551614, some ⟨0, 526336⟩) ∧
      clearEvent (linux_eventfd_read 3) 3 (some ⟨18446744073709551614, 526336⟩) =
        .returned (⟨-2, none⟩, some ⟨0, 526336⟩)) ∧
    ∀ (σ : Type) (fd : Int) (k k1 : σ) (v : Nat), 2 ^ 63 ≤ v → v < 2 ^ 64 →
      ∃ r, clearEvent (fun _ _ _ => .returned (0, v, k1)) fd k = .returned (r, k1) ∧
        r.value < 0 := by
  refine ⟨by decide, fun σ fd k k1 v h1 h2 => ⟨⟨toInt64 v, none⟩, ?_, (toInt64_of_large v h1 h2).2⟩⟩
  simp [clearEvent]

/-- What `clearEvent` does guarantee: a failed read (negative result) is
returned as it is, and a successful read of a counter value below 2^63 returns
that value, which is not negative; neither raises an exception. -/
theorem clearEvent_result (σ : Type) (read : Int → Nat → σ → Sys (Int × Nat × σ))
    (fd : Int) (k k1 : σ) (result : Int) (v : Nat) (h : read fd 0 k = .returned (result, v, k1)) :
    (result < 0 → clearEvent read fd k = .returned (⟨result, none⟩, k1)) ∧
    (0 ≤ result → v < 2 ^ 63 → clearEvent read fd k = .returned (⟨v, none⟩, k1)) := by
  constructor
  · intro hr
    simp [clearEvent, h, hr]
  · intro hr hv
    have : ¬ result < 0 := by omega
    simp [clearEvent, h, this, toInt64_of_small v hv]

/-! ## Kernel results and the watch set: the claims -/

/-- C5: for `signalEvent`, `close`, `addFileDescriptor`, `updateFileDescriptor`,
`removeFileDescriptor` and `poll`, whatever the kernel call does, when it
reports r (0 or -1 for the first five, any count or -1 for `poll`) the
operation returns r and leaves an exception pending exactly when r = -1; so a
failed close always raises and a poll returning 0 raises nothing. -/
theorem kernel_failures_surfaced (σ : Type) :
    (∀ (write : Int → Nat → σ → Sys (Int × σ)) (fd value : Int) (k k1 : σ) (r : Int),
      write fd (toUInt64 value) k = .returned (r, k1) → r = 0 ∨ r = -1 →
      ∃ x, signalEvent write fd value k = .returned (⟨r, x⟩, k1) ∧ (x ≠ none ↔ r = -1)) ∧
    (∀ (sys_close : Int → σ → Sys (Int × σ)) (fd : Int) (k k1 : σ) (r : Int),
      sys_close fd k = .returned (r, k1) → r = 0 ∨ r = -1 →
      ∃ x, close sys_close fd k = .returned (⟨r, x⟩, k1) ∧ (x ≠ none ↔ r = -1)) ∧
    (∀ (ctl : Int → Nat → Int → Option epoll_event → σ → Sys (Int × σ))
      (epollfd fd interests : Int) (k k1 : σ) (r : Int),
      ctl epollfd EPOLL_CTL_ADD fd (some ⟨toUInt32 interests, fd⟩) k = .returned (r, k1) →
      r = 0 ∨ r = -1 →
      ∃ x, addFileDescriptor ctl epollfd fd interests k = .returned (⟨r, x⟩, k1) ∧
        (x ≠ none ↔ r = -1)) ∧
    (∀ (ctl : Int → Nat → Int → Option epoll_event → σ → Sys (Int × σ))
      (epollfd fd interests : Int) (k k1 : σ) (r : Int),
      ctl epollfd EPOLL_CTL_MOD fd (some ⟨toUInt32 interests, fd⟩) k = .returned (r, k1) →
      r = 0 ∨ r = -1 →
      ∃ x, updateFileDescriptor ctl epollfd fd interests k = .returned (⟨r, x⟩, k1) ∧
        (x ≠ none ↔ r = -1)) ∧
    (∀ (ctl : Int → Nat → Int → Option epoll_event → σ → Sys (Int × σ))
      (epollfd fd : Int) (k k1 : σ) (r : Int),
      ctl epollfd EPOLL_CTL_DEL fd none k = .returned (r, k1) → r = 0 ∨ r = -1 →
      ∃ x, removeFileDescriptor ctl epollfd fd k = .returned (⟨r, x⟩, k1) ∧
        (x ≠ none ↔ r = -1)) ∧
    (∀ (wait : Int → Int → Int → Int → σ → Sys (Int × σ))
      (epollfd eventsPointer maxEvents timeout : Int) (k k1 : σ) (r : Int),
      wait epollfd eventsPointer maxEvents (toInt32 timeout) k = .returned (r, k1) →
      -1 ≤ r →
      ∃ x, poll wait epollfd eventsPointer maxEvents timeout k = .returned (⟨r, x⟩, k1) ∧
        (x ≠ none ↔ r = -1)) := by
  refine ⟨?_, ?_, ?_, ?_, ?_, ?_⟩
  · intro write fd value k k1 r h hr
    rcases hr with rfl | rfl
    · exact ⟨none, by simp [signalEvent, h], by simp⟩
    · exact ⟨throw_native_exception "Unable to signal the eventfd", by simp [signalEvent, h],
        by simp [throw_native_exception]⟩
  · intro sys_close fd k k1 r h hr
    rcases hr with rfl | rfl
    · exact ⟨none, by simp [close, h], by simp⟩
    · exact ⟨throw_native_exception "Unable to close epoll fd", by simp [close, h],
        by simp [throw_native_exception]⟩
  · intro ctl epollfd fd interests k k1 r h hr
    rcases hr with rfl | rfl
    · exact ⟨none, by simp [addFileDescriptor, h], by simp⟩
    · exact ⟨throw_native_exception "Unable to add epoll file descriptor", by simp [addFileDescriptor, h],
        by simp [throw_native_exception]⟩
  · intro ctl epollfd fd interests k k1 r h hr
    rcases hr with rfl | rfl
    · exact ⟨none, by simp [updateFileDescriptor, h], by simp⟩
    · exact ⟨throw_native_exception "Unable to modify FD", by simp [updateFileDescriptor, h],
        by simp [throw_native_exception]⟩
  · intro ctl epollfd fd k k1 r h hr
    rcases hr with rfl | rfl
    · exact ⟨none, by simp [removeFileDescriptor, h], by simp⟩
    · exact ⟨throw_native_exception "Unable to remove file descriptor", by simp [removeFileDescriptor, h],
        by simp [throw_native_exception]⟩
  · intro wait epollfd eventsPointer maxEvents timeout k k1 r h _
    by_cases hr : r = -1
    · subst hr
      exact ⟨throw_native_exception "Unable to poll", by simp [poll, h],
        by simp [throw_native_exception]⟩
    · exact ⟨none, by simp [poll, h, hr], by simp [hr]⟩

/-- C5 at concrete kernels: a close that fails, and a poll that times out. -/
theorem kernel_failures_surfaced_witness :
    (∃ x, close (fun _ (_ : Unit) => Sys.returned (-1, ())) 5 () = .returned (⟨-1, x⟩, ()) ∧
      (x ≠ none ↔ (-1 : Int) = -1)) ∧
    (∃ x, poll (fun _ _ _ _ (_ : Unit) => Sys.returned (0, ())) 4 0 8 1000 () =
        .returned (⟨0, x⟩, ()) ∧ (x ≠ none ↔ (0 : Int) = -1)) :=
  ⟨(kernel_failures_surfaced Unit).2.1 (fun _ _ => Sys.returned (-1, ())) 5 () () (-1) rfl
      (Or.inr rfl),
    (kernel_failures_surfaced Unit).2.2.2.2.2 (fun _ _ _ _ _ => Sys.returned (0, ())) 4 0 8 1000
      () () 0 rfl (by decide)⟩

/-- C6 at failing inputs: a timeout of 2^32 ms reaches the kernel as 0, so
`poll` does what it does for timeout 0 (poll and return at once), and a timeout
of 2^32 - 1 ms reaches the kernel as -1, so `poll` does what it does for
timeout -1 (block without limit). -/
theorem poll_timeout_is_truncated :
    (poll (recording_epoll_wait 0) 4 0 8 4294967296 [] = .returned (⟨0, none⟩, [0]) ∧
      poll (recording_epoll_wait 0) 4 0 8 4294967295 [] = .returned (⟨0, none⟩, [-1])) ∧
    ∀ (σ : Type) (wait : Int → Int → Int → Int → σ → Sys (Int × σ))
      (epollfd eventsPointer maxEvents : Int) (k : σ),
      poll wait epollfd eventsPointer maxEvents 4294967296 k =
        poll wait epollfd eventsPointer maxEvents 0 k ∧
      poll wait epollfd eventsPointer maxEvents 4294967295 k =
        poll wait epollfd eventsPointer maxEvents (-1) k := by
  refine ⟨by decide, fun σ wait epollfd eventsPointer maxEvents k => ⟨?_, ?_⟩⟩
  · have h : toInt32 4294967296 = toInt32 0 := by decide
    simp only [poll, h]
  · have h : toInt32 4294967295 = toInt32 (-1) := by decide
    simp only [poll, h]

/-- What `poll` does guarantee: a timeout in the range of a C `int` reaches the
kernel unchanged. -/
theorem poll_timeout_in_range (timeout : Int) (h1 : -2 ^ 31 ≤ timeout) (h2 : timeout < 2 ^ 31)
    (result epollfd eventsPointer maxEvents : Int) :
    ∃ r, poll (recording_epoll_wait result) epollfd eventsPointer maxEvents timeout [] =
      .returned (r, [timeout]) := by
  by_cases hr : result = -1
  · exact ⟨⟨-1, throw_native_exception "Unable to poll"⟩,
      by simp [poll, recording_epoll_wait, toInt32_of_range timeout h1 h2, hr]⟩
  · exact ⟨⟨result, none⟩,
      by simp [poll, recording_epoll_wait, toInt32_of_range timeout h1 h2, hr]⟩

end Java_tel_schich_javacan_linux_epoll_EPoll
